import Mathlib

/-!
Verification of the weekly aggregation and engagement-classification engine
of the Engineer Productivity Analyzer, together with the React dashboard
helpers that render its output.

The backend engine (event normalizer, composite scorer, baseline calculator,
engagement classifier, exception resolver, aggregation job) is not shipped in
this source snapshot; its definitions below are modelled from the
specification and the repository README.  The frontend components
(`StatusBadge`, `TrendChart`, `Dashboard.exportToCSV`) are embedded from the
JSX source directly.
-/

namespace SlackKiller

/-- Engagement status: the ordered severity scale `healthy < watch <
needs_review` used throughout the engine. -/
inductive Status where
  | healthy
  | watch
  | needsReview
deriving DecidableEq, Repr, Fintype

/-- Numeric rank of a status on the severity scale. -/
def statusRank : Status → Nat
  | .healthy => 0
  | .watch => 1
  | .needsReview => 2

/-- Severity order on statuses. -/
def statusLe (a b : Status) : Prop := statusRank a ≤ statusRank b

instance (a b : Status) : Decidable (statusLe a b) :=
  inferInstanceAs (Decidable (statusRank a ≤ statusRank b))

/-- Maximum of two statuses on the severity scale. -/
def statusMax (a b : Status) : Status :=
  if statusRank a ≤ statusRank b then b else a

/-- The wire encoding of a status, the only labels the engine ever emits. -/
def statusToString : Status → String
  | .healthy => "healthy"
  | .watch => "watch"
  | .needsReview => "needs_review"

/-- Modelled from the spec: per-(user, week) activity tally produced by the
Event Normalizer; all fields default to zero when no events of that kind
occurred. -/
structure ActivityTally where
  tickets_completed : ℚ := 0
  story_points : ℚ := 0
  prs_authored : ℚ := 0
  prs_reviewed : ℚ := 0
  commits : ℚ := 0
  docs_authored : ℚ := 0
  meeting_hours : ℚ := 0
deriving DecidableEq, Repr

/-- Modelled from the spec: a normalized activity event consumed by the
Event Normalizer — a kind tag plus a numeric payload (story points for
tickets, hours for meetings). -/
structure Event where
  kind : String
  value : ℚ
deriving DecidableEq, Repr

/-- Modelled from the spec: one accumulation step of the Event Normalizer.
Unknown kinds are skipped and counted in the dropped counter. -/
def stepEvent (acc : ActivityTally × Nat) (e : Event) : ActivityTally × Nat :=
  let t := acc.1
  match e.kind with
  | "ticket_completed" =>
      ({ t with tickets_completed := t.tickets_completed + 1,
                story_points := t.story_points + e.value }, acc.2)
  | "pr_authored" => ({ t with prs_authored := t.prs_authored + 1 }, acc.2)
  | "pr_reviewed" => ({ t with prs_reviewed := t.prs_reviewed + 1 }, acc.2)
  | "commit" => ({ t with commits := t.commits + 1 }, acc.2)
  | "doc_authored" => ({ t with docs_authored := t.docs_authored + 1 }, acc.2)
  | "meeting" => ({ t with meeting_hours := t.meeting_hours + e.value }, acc.2)
  | _ => (t, acc.2 + 1)

/-- Modelled from the spec: the Event Normalizer for one (user, week) —
accumulates the week's events into an `ActivityTally` plus a dropped
counter. -/
def tallyFromEvents (events : List Event) : ActivityTally × Nat :=
  events.foldl stepEvent ({}, 0)

/-- Modelled from the spec / README `COMPOSITE_SCORE_WEIGHTS`: per-role
metric weights (the README's backend profile is the default below). -/
structure RoleWeights where
  tickets : ℚ := 25/100
  story_points : ℚ := 20/100
  prs_authored : ℚ := 15/100
  prs_reviewed : ℚ := 15/100
  commits : ℚ := 10/100
  docs : ℚ := 10/100
  meetings : ℚ := 5/100
deriving DecidableEq, Repr

/-- Modelled from the spec: per-metric saturation ceilings for
normalization (configurable reference scale; defaults chosen here). -/
structure SaturationCaps where
  tickets : ℚ := 10
  story_points : ℚ := 20
  prs_authored : ℚ := 10
  prs_reviewed : ℚ := 10
  commits : ℚ := 25
  docs : ℚ := 5
  meetings : ℚ := 20
deriving DecidableEq, Repr

/-- Modelled from the spec: engine configuration handed in by the scheduler. -/
structure Config where
  weights : RoleWeights := {}
  caps : SaturationCaps := {}
deriving DecidableEq, Repr

/-- Modelled from the spec: clamp a raw tally value to its saturation
ceiling, then scale to [0,1]. -/
def normalizeMetric (x cap : ℚ) : ℚ := min x cap / cap

/-- Modelled from the spec: the Composite Scorer —
`composite_score = Σ w_role[m] * normalized(tally[m]) * 100`. -/
def compositeScore (cfg : Config) (t : ActivityTally) : ℚ :=
  (cfg.weights.tickets * normalizeMetric t.tickets_completed cfg.caps.tickets
    + cfg.weights.story_points * normalizeMetric t.story_points cfg.caps.story_points
    + cfg.weights.prs_authored * normalizeMetric t.prs_authored cfg.caps.prs_authored
    + cfg.weights.prs_reviewed * normalizeMetric t.prs_reviewed cfg.caps.prs_reviewed
    + cfg.weights.commits * normalizeMetric t.commits cfg.caps.commits
    + cfg.weights.docs * normalizeMetric t.docs_authored cfg.caps.docs
    + cfg.weights.meetings * normalizeMetric t.meeting_hours cfg.caps.meetings) * 100

/-- Modelled from the spec: context flags active for a user in a given week
(`role_change` meaning the week lies in a role-change grace period). -/
structure WeekFlags where
  pto : Bool := false
  onboarding : Bool := false
  role_change : Bool := false
  on_call : Bool := false
deriving DecidableEq, Repr

/-- Modelled from the spec: whether any suppressing flag is active. -/
def suppressing (f : WeekFlags) : Bool :=
  f.pto || f.onboarding || f.role_change || f.on_call

/-- Default low-engagement threshold (30% of baseline). -/
def LOW_ENGAGEMENT_THRESHOLD : ℚ := 3/10

/-- Default sudden-drop threshold (40% drop vs baseline). -/
def SUDDEN_DROP_THRESHOLD : ℚ := 4/10

/-- Weeks of sustained low engagement before `watch`. -/
def WATCH_WEEKS : Nat := 2

/-- Weeks of sustained low engagement before `needs_review`. -/
def NEEDS_REVIEW_WEEKS : Nat := 3

/-- Role-change grace period length in weeks. -/
def ROLE_CHANGE_GRACE_WEEKS : Nat := 2

/-- Trailing-window size of the Baseline Calculator. -/
def BASELINE_WINDOW : Nat := 8

/-- Minimum number of eligible prior weeks needed for a baseline. -/
def MIN_BASELINE_WEEKS : Nat := 2

/-- Near-zero epsilon for the sustained-inactivity rule. -/
def INACTIVITY_EPSILON : ℚ := 1/2

/-- Modelled from the spec: one week of a user's history as the Engagement
Classifier sees it — composite score plus the underlying tally. -/
structure WeekData where
  composite : ℚ
  tally : ActivityTally
deriving DecidableEq, Repr

/-- Number of consecutive trailing elements of a list satisfying `p`. -/
def trailingCount (p : α → Bool) (l : List α) : Nat :=
  (l.reverse.takeWhile p).length

/-- Modelled from the spec: length of the run of consecutive closed weeks
ending at the current week whose composite is strictly below
`baseline * LOW_ENGAGEMENT_THRESHOLD`. -/
def lowStreak (b : ℚ) (hist : List WeekData) (cur : WeekData) : Nat :=
  if cur.composite < b * LOW_ENGAGEMENT_THRESHOLD then
    1 + trailingCount (fun w => w.composite < b * LOW_ENGAGEMENT_THRESHOLD) hist
  else 0

/-- Modelled from the spec: severity contributed by the sustained-low rule
given the current low streak (`N≥3 ⇒ needs_review`, `N≥2 ⇒ watch`). -/
def sustainedLowStatus (streak : Nat) : Status :=
  if NEEDS_REVIEW_WEEKS ≤ streak then .needsReview
  else if WATCH_WEEKS ≤ streak then .watch
  else .healthy

/-- Modelled from the spec: whether a week counts as inactive — all of
tickets, PRs authored, PRs reviewed, commits and docs below epsilon. -/
def inactiveWeek (w : WeekData) : Bool :=
  w.tally.tickets_completed < INACTIVITY_EPSILON
    && w.tally.prs_authored < INACTIVITY_EPSILON
    && w.tally.prs_reviewed < INACTIVITY_EPSILON
    && w.tally.commits < INACTIVITY_EPSILON
    && w.tally.docs_authored < INACTIVITY_EPSILON

/-- Modelled from the spec: length of the run of consecutive inactive weeks
ending at the current week. -/
def inactiveStreak (hist : List WeekData) (cur : WeekData) : Nat :=
  if inactiveWeek cur then 1 + trailingCount inactiveWeek hist else 0

/-- Modelled from the spec: the multi-week evaluation window for the
low-collaboration rule — the current week and the trailing
`NEEDS_REVIEW_WEEKS - 1` closed weeks. -/
def collabWindow (hist : List WeekData) (cur : WeekData) : List WeekData :=
  cur :: hist.reverse.take (NEEDS_REVIEW_WEEKS - 1)

/-- Modelled from the spec: the low-collaboration condition — PRs authored
somewhere in the window but zero PRs reviewed across the whole window. -/
def lowCollabCond (hist : List WeekData) (cur : WeekData) : Prop :=
  0 < ((collabWindow hist cur).map (fun w => w.tally.prs_authored)).sum
    ∧ ((collabWindow hist cur).map (fun w => w.tally.prs_reviewed)).sum = 0

instance (hist : List WeekData) (cur : WeekData) :
    Decidable (lowCollabCond hist cur) :=
  inferInstanceAs (Decidable (_ ∧ _))

/-- Modelled from the spec: the Engagement Classifier.  With no baseline the
user has insufficient history and the status is `healthy` (no verdict
without a reference); otherwise each rule contributes a severity and the
raw status is the running maximum, computed in rule order. -/
def classifyRaw (hist : List WeekData) (cur : WeekData) (baseline : Option ℚ) :
    Status :=
  match baseline with
  | none => .healthy
  | some b =>
    let s1 : Status :=
      if cur.composite < b * (1 - SUDDEN_DROP_THRESHOLD) then .watch else .healthy
    let s2 : Status := sustainedLowStatus (lowStreak b hist cur)
    let s3 : Status := if lowCollabCond hist cur then .watch else .healthy
    let s4 : Status :=
      if WATCH_WEEKS ≤ inactiveStreak hist cur then .needsReview else .healthy
    statusMax (statusMax (statusMax s1 s2) s3) s4

/-- Modelled from the spec: a manual override record (status + reason),
submitted through the reporting collaborator. -/
structure OverrideRec where
  status : Status
  reason : String
deriving DecidableEq, Repr

/-- Modelled from the spec: what the Exception Resolver surfaces for a
user-week: the raw automated status, the final status, the context flags
and any override — all retained. -/
structure Resolution where
  raw_status : Status
  final_status : Status
  flags : WeekFlags
  override : Option OverrideRec
deriving DecidableEq, Repr

/-- Modelled from the spec: the Exception Resolver.  An override takes
precedence; otherwise a suppressing flag caps the final status at
`healthy`; raw status and flags are always retained. -/
def resolve (raw : Status) (flags : WeekFlags) (ov : Option OverrideRec) :
    Resolution :=
  { raw_status := raw
    final_status :=
      match ov with
      | some o => o.status
      | none => if suppressing flags then .healthy else raw
    flags := flags
    override := ov }

/-- Modelled from the spec: the persisted per-(user, week) record. -/
structure WeeklyScore where
  composite_score : ℚ
  baseline_score : Option ℚ
  raw_status : Status
  final_status : Status
  flags : WeekFlags
  tally : ActivityTally
deriving DecidableEq, Repr

/-- Modelled from the spec: walk a user's prior weeks oldest-first keeping
the composite scores of weeks eligible for the baseline — weeks flagged
pto/onboarding/role_change are excluded, and a role-change week opens a
grace period during which subsequent weeks are excluded too. -/
def eligibleScoresGo : List WeeklyScore → Nat → List ℚ
  | [], _ => []
  | w :: rest, grace =>
    if w.flags.role_change then eligibleScoresGo rest ROLE_CHANGE_GRACE_WEEKS
    else if w.flags.pto || w.flags.onboarding || decide (0 < grace) then
      eligibleScoresGo rest (grace - 1)
    else w.composite_score :: eligibleScoresGo rest 0

/-- Modelled from the spec: composite scores of the prior weeks eligible
for the baseline, oldest first. -/
def eligibleScores (prior : List WeeklyScore) : List ℚ :=
  eligibleScoresGo prior 0

/-- Modelled from the spec: the Baseline Calculator — trailing average of
the last `BASELINE_WINDOW` eligible prior weeks; unavailable (`none`, never
a numeric zero) when fewer than `MIN_BASELINE_WEEKS` eligible weeks exist. -/
def baselineScore (prior : List WeeklyScore) : Option ℚ :=
  let es := eligibleScores prior
  if es.length < MIN_BASELINE_WEEKS then none
  else
    let window := (es.reverse.take BASELINE_WINDOW).reverse
    some (window.sum / window.length)

/-- Modelled from the spec: the scheduler's input for one user-week — the
week's normalized events plus the context flags active that week. -/
structure WeekInput where
  events : List Event
  flags : WeekFlags
deriving DecidableEq, Repr

/-- View a persisted record as the classifier's per-week data. -/
def toWeekData (r : WeeklyScore) : WeekData :=
  { composite := r.composite_score, tally := r.tally }

/-- Modelled from the spec: score one week of one user given the records of
the strictly earlier weeks — normalize events, compute the composite,
derive the baseline from prior records only, classify, and resolve
exceptions (no override on the automated path). -/
def scoreWeek (cfg : Config) (prior : List WeeklyScore) (input : WeekInput) :
    WeeklyScore :=
  let tally := (tallyFromEvents input.events).1
  let comp := compositeScore cfg tally
  let base := baselineScore prior
  let raw := classifyRaw (prior.map toWeekData) { composite := comp, tally := tally } base
  { composite_score := comp
    baseline_score := base
    raw_status := raw
    final_status := (resolve raw input.flags none).final_status
    flags := input.flags
    tally := tally }

/-- Modelled from the spec: process a user's timeline oldest-first, each
week scored against the records already produced. -/
def processTimeline (cfg : Config) (inputs : List WeekInput) : List WeeklyScore :=
  inputs.foldl (fun acc i => acc ++ [scoreWeek cfg acc i]) []

/-- Modelled from the spec: one run of the aggregation job for week index
`w` of a user's store of weekly records — recompute the week's record from
the strictly earlier records and write it at index `w` (appending when the
week is new). -/
def runWeek (cfg : Config) (store : List WeeklyScore) (w : Nat)
    (input : WeekInput) : List WeeklyScore :=
  let r := scoreWeek cfg (store.take w) input
  if w < store.length then store.set w r else store ++ [r]

/-! ## Frontend (embedded from the JSX source) -/

/-- The record returned by `StatusBadge.getStatusInfo`: CSS class, display
label and description (`class` is a Lean keyword, hence `cssClass`). -/
structure StatusInfo where
  cssClass : String
  label : String
  description : String
deriving DecidableEq, Repr

/-- `StatusBadge.getStatusInfo` from `StatusBadge.jsx`: switches on
`status?.toLowerCase()`; a null/undefined status (here `none`) and every
unrecognized string fall to the default Unknown branch. -/
def getStatusInfo (status : Option String) : StatusInfo :=
  match status.map String.toLower with
  | some s =>
      match s with
      | "healthy" =>
          { cssClass := "status-healthy", label := "Healthy",
            description := "Activity levels are within expected range" }
      | "watch" =>
          { cssClass := "status-watch", label := "Watch",
            description := "This signal indicates reduced activity and may require a manager check-in." }
      | "needs_review" =>
          { cssClass := "status-needs-review", label := "Needs Review",
            description := "Sustained low activity detected. Manager review recommended." }
      | _ =>
          { cssClass := "status-unknown", label := "Unknown",
            description := "Status not available" }
  | none =>
      { cssClass := "status-unknown", label := "Unknown",
        description := "Status not available" }

/-- One item of the `data` array handed to `TrendChart`: a `week_start`
string plus a JS object's numeric fields, modelled as an association list
(a field absent from the list is `undefined`). -/
structure TrendItem where
  week_start : String
  fields : List (String × ℚ)
deriving DecidableEq, Repr

/-- JS property read `item[metric]` on a `TrendItem`. -/
def itemGet (it : TrendItem) (m : String) : Option ℚ :=
  (it.fields.find? (fun p => p.1 == m)).map (fun p => p.2)

/-- JS `v || 0` on a numeric property: undefined and the falsy number 0
both become 0. -/
def jsOrZero : Option ℚ → ℚ
  | none => 0
  | some x => if x = 0 then 0 else x

/-- One datum of `chartData` in `TrendChart.jsx`: the `week_start`
passthrough plus one key per requested metric (the presentation-only
`week` date label is omitted).  The metric keys are built by
`metrics.reduce`, i.e. in metric order. -/
structure ChartDatum where
  week_start : String
  values : List (String × ℚ)
deriving DecidableEq, Repr

/-- The chart datum `TrendChart` builds for one input item. -/
def chartDatum (metrics : List String) (it : TrendItem) : ChartDatum :=
  { week_start := it.week_start
    values := metrics.map (fun m => (m, jsOrZero (itemGet it m))) }

/-- `TrendChart` from `TrendChart.jsx`: with a null or empty `data` array it
renders the empty state and builds no chart data (`none`); otherwise it
maps every item to a chart datum. -/
def trendChartData (data : Option (List TrendItem)) (metrics : List String) :
    Option (List ChartDatum) :=
  match data with
  | none => none
  | some l => if l.isEmpty then none else some (l.map (chartDatum metrics))

/-- Metric-key lookup on a chart datum (first matching key, as JS property
access on the built object). -/
def datumGet (d : ChartDatum) (m : String) : Option ℚ :=
  (d.values.find? (fun p => p.1 == m)).map (fun p => p.2)

/-- A CSV cell of `Dashboard.exportToCSV`: a string field or a number. -/
inductive Field where
  | str (s : String)
  | num (x : ℚ)
deriving DecidableEq, Repr

/-- The member sub-record `exportToCSV` reads from `member.current_week`. -/
structure MemberWeek where
  composite_score : Option ℚ
  tickets_completed : ℚ
  prs_authored : ℚ
  prs_reviewed : ℚ
deriving DecidableEq, Repr

/-- A team member as rendered in the weekly report. -/
structure Member where
  user_name : String
  engagement_status : String
  current_week : MemberWeek
deriving DecidableEq, Repr

/-- A team of the weekly report. -/
structure Team where
  team_name : String
  members : List Member
deriving DecidableEq, Repr

/-- The weekly report loaded by the Dashboard. -/
structure Report where
  week_start : String
  teams : List Team
deriving DecidableEq, Repr

/-- The fixed CSV header row of `exportToCSV`. -/
def csvHeader : List Field :=
  [.str ("Week Start"), .str ("Team"), .str ("User"), .str ("Status"),
   .str ("Composite Score"), .str ("Tickets"), .str ("PRs Authored"),
   .str ("PRs Reviewed")]

/-- The CSV row `exportToCSV` builds for one member of one team
(`member.current_week.composite_score || 0` is the JS falsy default). -/
def memberRow (r : Report) (t : Team) (m : Member) : List Field :=
  [.str r.week_start, .str t.team_name, .str m.user_name,
   .str m.engagement_status,
   .num (jsOrZero m.current_week.composite_score),
   .num m.current_week.tickets_completed,
   .num m.current_week.prs_authored,
   .num m.current_week.prs_reviewed]

/-- The row list of the CSV built by `exportToCSV` for a loaded report:
the header then one row per member of each team, teams in order, members
in order (`teams.flatMap(team => team.members.map(...))`). -/
def exportRows (r : Report) : List (List Field) :=
  csvHeader :: r.teams.flatMap (fun t => t.members.map (memberRow r t))

/-- `exportToCSV` from `Dashboard.jsx`: returns without producing anything
when no weekly report is loaded (the serialization of the rows to a
comma/newline-joined string and the download are presentation and are not
modelled). -/
def exportToCSV (weeklyReport : Option Report) : Option (List (List Field)) :=
  match weeklyReport with
  | none => none
  | some r => some (exportRows r)

/-! ## Severity-order helper lemmas -/

lemma statusLe_max_of_le_left : ∀ a b c : Status, statusLe a b → statusLe a (statusMax b c) := by
  decide

lemma statusLe_refl : ∀ a : Status, statusLe a a := by decide

/-! ## Rule-firing predicates of the Engagement Classifier

Each classifier rule gets an explicit firing condition and severity, stated
independently of `classifyRaw`, so that the max-severity characterization is
a real theorem about the classifier. -/

/-- Modelled from the spec: rule 1 (sudden drop) fires — the current week's
composite is below `baseline * (1 − SUDDEN_DROP_THRESHOLD)`. -/
def ruleSuddenDropFires (b : ℚ) (cur : WeekData) : Prop :=
  cur.composite < b * (1 - SUDDEN_DROP_THRESHOLD)

instance (b : ℚ) (cur : WeekData) : Decidable (ruleSuddenDropFires b cur) :=
  inferInstanceAs (Decidable (_ < _))

/-- Modelled from the spec: rule 2 (sustained low engagement) fires — at
least `WATCH_WEEKS` consecutive weeks below threshold ending now. -/
def ruleSustainedLowFires (b : ℚ) (hist : List WeekData) (cur : WeekData) : Prop :=
  WATCH_WEEKS ≤ lowStreak b hist cur

instance (b : ℚ) (hist : List WeekData) (cur : WeekData) :
    Decidable (ruleSustainedLowFires b hist cur) :=
  inferInstanceAs (Decidable (_ ≤ _))

/-- Modelled from the spec: the severity rule 2 contributes when it fires. -/
def ruleSustainedLowSeverity (b : ℚ) (hist : List WeekData) (cur : WeekData) : Status :=
  if NEEDS_REVIEW_WEEKS ≤ lowStreak b hist cur then .needsReview else .watch

/-- Modelled from the spec: rule 4 (sustained inactivity) fires — all five
activity metrics near zero for 2+ consecutive weeks ending now. -/
def ruleInactivityFires (hist : List WeekData) (cur : WeekData) : Prop :=
  WATCH_WEEKS ≤ inactiveStreak hist cur

instance (hist : List WeekData) (cur : WeekData) :
    Decidable (ruleInactivityFires hist cur) :=
  inferInstanceAs (Decidable (_ ≤ _))

/-! ## Concrete scenario data used by counterexamples and witnesses -/

/-- A week's tally with ordinary activity in every metric (keeps the
low-collaboration and inactivity rules quiet). -/
def activeTally : ActivityTally :=
  { tickets_completed := 3, story_points := 5, prs_authored := 2,
    prs_reviewed := 1, commits := 5, docs_authored := 1, meeting_hours := 4 }

/-- A normal week: composite 80 against baseline 80. -/
def exHigh : WeekData := { composite := 80, tally := activeTally }

/-- A week exactly at the low-engagement boundary: 24 = 80 * 0.3. -/
def exAt : WeekData := { composite := 24, tally := activeTally }

/-- A week strictly below the boundary: 23.92 = 0.299 * 80. -/
def exLow : WeekData := { composite := 2392/100, tally := activeTally }

/-! ## C1 — sustained-low boundary -/

/-- C1 counterexample: a user whose composite equals `baseline * 0.3`
exactly for the 2 consecutive closed weeks ending at the current week
(baseline 80, composites 24) nevertheless has raw_status `watch`, because
the sudden-drop rule fires (24 < 80 * 0.6); so exact-threshold for 2 weeks
does produce raw_status `watch`, contrary to the claim. -/
theorem C1_counterexample_exact_threshold_still_watch :
    exAt.composite = 80 * LOW_ENGAGEMENT_THRESHOLD ∧
    classifyRaw [exHigh, exAt] exAt (some 80) = Status.watch := by
  constructor
  · norm_num [exAt, LOW_ENGAGEMENT_THRESHOLD]
  · norm_num [classifyRaw, lowStreak, trailingCount, sustainedLowStatus, inactiveWeek,
      inactiveStreak, lowCollabCond, collabWindow, statusMax, statusRank, exHigh, exAt,
      activeTally, LOW_ENGAGEMENT_THRESHOLD, SUDDEN_DROP_THRESHOLD, WATCH_WEEKS,
      NEEDS_REVIEW_WEEKS, INACTIVITY_EPSILON, List.takeWhile]

/-- C1 (amended): the sustained-low threshold is strict — a composite
exactly at `baseline * 0.3` never counts toward the low streak, so the
sustained-low rule itself reports `healthy` there (the overall raw_status
can still be `watch` through the sudden-drop rule); a low streak of exactly
2 weeks (e.g. composites at 0.299 * baseline) yields raw_status `watch`
provided the sustained-inactivity rule does not fire; a low streak of 3 or
more weeks yields raw_status `needs_review`. -/
theorem C1_sustained_low_boundary_strict :
    (∀ (b : ℚ) (hist : List WeekData) (cur : WeekData),
       b * LOW_ENGAGEMENT_THRESHOLD ≤ cur.composite →
       sustainedLowStatus (lowStreak b hist cur) = Status.healthy) ∧
    (∀ (b : ℚ) (hist : List WeekData) (cur : WeekData),
       lowStreak b hist cur = 2 →
       ¬ ruleInactivityFires hist cur →
       classifyRaw hist cur (some b) = Status.watch) ∧
    (∀ (b : ℚ) (hist : List WeekData) (cur : WeekData),
       3 ≤ lowStreak b hist cur →
       classifyRaw hist cur (some b) = Status.needsReview) := by
  refine ⟨?_, ?_, ?_⟩
  · intro b hist cur h
    rw [lowStreak, if_neg (not_lt.mpr h)]
    rfl
  · intro b hist cur hk h4
    rw [ruleInactivityFires, WATCH_WEEKS, not_le] at h4
    simp only [classifyRaw, sustainedLowStatus, hk, NEEDS_REVIEW_WEEKS, WATCH_WEEKS]
    norm_num
    split_ifs with h1 h2 h3 <;> first
      | rfl
      | (exfalso; omega)
  · intro b hist cur hk
    simp only [classifyRaw, sustainedLowStatus, NEEDS_REVIEW_WEEKS, WATCH_WEEKS]
    split_ifs <;> rfl

/-- Arithmetic fact for the C1 witness: 24 is not below the boundary. -/
lemma exAt_not_below : 80 * LOW_ENGAGEMENT_THRESHOLD ≤ exAt.composite := by
  norm_num [exAt, LOW_ENGAGEMENT_THRESHOLD]

/-- Arithmetic fact for the C1 witness: a 2-week streak at 23.92 vs 80. -/
lemma exLow_streak_two : lowStreak 80 [exHigh, exLow] exLow = 2 := by
  norm_num [lowStreak, trailingCount, exHigh, exLow, LOW_ENGAGEMENT_THRESHOLD,
    List.takeWhile]

/-- Arithmetic fact for the C1 witness: active weeks are not inactive. -/
lemma exLow_not_inactive : ¬ ruleInactivityFires [exHigh, exLow] exLow := by
  norm_num [ruleInactivityFires, inactiveStreak, inactiveWeek, activeTally, exLow,
    INACTIVITY_EPSILON, WATCH_WEEKS]

/-- Arithmetic fact for the C1 witness: a 3-week streak at 23.92 vs 80. -/
lemma exLow_streak_three : 3 ≤ lowStreak 80 [exLow, exLow] exLow := by
  norm_num [lowStreak, trailingCount, exLow, LOW_ENGAGEMENT_THRESHOLD, List.takeWhile]

/-- C1 witness: the amended boundary facts at baseline 80 with composites
24 (exact threshold), and 23.92 for two and three trailing weeks. -/
theorem C1_sustained_low_boundary_strict_witness :
    sustainedLowStatus (lowStreak 80 [exHigh, exLow] exAt) = Status.healthy ∧
    classifyRaw [exHigh, exLow] exLow (some 80) = Status.watch ∧
    classifyRaw [exLow, exLow] exLow (some 80) = Status.needsReview :=
  ⟨C1_sustained_low_boundary_strict.1 80 [exHigh, exLow] exAt exAt_not_below,
   C1_sustained_low_boundary_strict.2.1 80 [exHigh, exLow] exLow exLow_streak_two
     exLow_not_inactive,
   C1_sustained_low_boundary_strict.2.2 80 [exLow, exLow] exLow exLow_streak_three⟩

/-! ## C2 — exception suppression -/

/-- C2: for a user-week whose raw_status is `watch` or `needs_review`, an
active suppressing flag makes the Exception Resolver cap final_status at
`healthy` while the raw status and the flag set are retained unchanged in
the resolution (no override on the automated path). -/
theorem C2_suppression_caps_final_keeps_raw :
    ∀ (raw : Status) (flags : WeekFlags),
      (raw = Status.watch ∨ raw = Status.needsReview) →
      suppressing flags = true →
      (resolve raw flags none).final_status = Status.healthy ∧
      (resolve raw flags none).raw_status = raw ∧
      (resolve raw flags none).flags = flags := by
  intro raw flags _ hs
  refine ⟨?_, rfl, rfl⟩
  simp [resolve, hs]

/-- C2 witness: a user meeting `needs_review` criteria while flagged pto
has final_status `healthy` with raw_status `needs_review` retained. -/
theorem C2_suppression_caps_final_keeps_raw_witness :
    (resolve Status.needsReview { pto := true } none).final_status = Status.healthy ∧
    (resolve Status.needsReview { pto := true } none).raw_status = Status.needsReview ∧
    (resolve Status.needsReview { pto := true } none).flags = { pto := true } :=
  C2_suppression_caps_final_keeps_raw Status.needsReview { pto := true }
    (Or.inr rfl) rfl

/-! ## C3 — raw status is the maximum fired severity -/

/-- C3: with an available baseline, the classifier's raw status equals the
maximum severity (fold of `statusMax`, `healthy` for the empty list) over
the severities of exactly the rules that fire; with no baseline the user
has insufficient history, no rule is evaluated and the status is
`healthy`. -/
theorem C3_raw_status_is_max_fired_severity :
    (∀ (hist : List WeekData) (cur : WeekData),
       classifyRaw hist cur none = Status.healthy) ∧
    ∀ (hist : List WeekData) (cur : WeekData) (b : ℚ),
      classifyRaw hist cur (some b) =
        ((if ruleSuddenDropFires b cur then [Status.watch] else []) ++
         (if ruleSustainedLowFires b hist cur then
            [ruleSustainedLowSeverity b hist cur] else []) ++
         (if lowCollabCond hist cur then [Status.watch] else []) ++
         (if ruleInactivityFires hist cur then [Status.needsReview] else [])).foldr
          statusMax Status.healthy := by
  refine ⟨fun hist cur => rfl, fun hist cur b => ?_⟩
  simp only [classifyRaw, sustainedLowStatus, ruleSuddenDropFires,
    ruleSustainedLowFires, ruleSustainedLowSeverity, ruleInactivityFires,
    WATCH_WEEKS, NEEDS_REVIEW_WEEKS]
  split_ifs <;> first
    | rfl
    | (exfalso; omega)

/-! ## C4 — sudden drop -/

/-- Arithmetic fact for the C4 witness: 20 is below 80 * 0.6. -/
lemma drop_example_lt : ((20:ℚ)) < 80 * (1 - SUDDEN_DROP_THRESHOLD) := by
  norm_num [SUDDEN_DROP_THRESHOLD]

/-- C4: a composite strictly below `baseline * (1 − 0.4)` in the current
week alone makes raw_status at least `watch`; and the spec's example —
weekly composites [80, 82, 79, 20] against baseline 80 with ordinary
activity tallies — classifies week 4 as exactly `watch`, not
`needs_review`. -/
theorem C4_sudden_drop_at_least_watch :
    (∀ (b : ℚ) (hist : List WeekData) (cur : WeekData),
       cur.composite < b * (1 - SUDDEN_DROP_THRESHOLD) →
       statusLe Status.watch (classifyRaw hist cur (some b))) ∧
    classifyRaw
      [{ composite := 80, tally := activeTally },
       { composite := 82, tally := activeTally },
       { composite := 79, tally := activeTally }]
      { composite := 20, tally := activeTally } (some 80) = Status.watch := by
  constructor
  · intro b hist cur h
    simp only [classifyRaw, if_pos h]
    exact statusLe_max_of_le_left _ _ _
      (statusLe_max_of_le_left _ _ _
        (statusLe_max_of_le_left _ _ _ (statusLe_refl _)))
  · norm_num [classifyRaw, lowStreak, trailingCount, sustainedLowStatus, inactiveWeek,
      inactiveStreak, lowCollabCond, collabWindow, statusMax, statusRank,
      activeTally, LOW_ENGAGEMENT_THRESHOLD, SUDDEN_DROP_THRESHOLD, WATCH_WEEKS,
      NEEDS_REVIEW_WEEKS, INACTIVITY_EPSILON, List.takeWhile]

/-- C4 witness: the sudden-drop bound applied at composite 20, baseline 80. -/
theorem C4_sudden_drop_at_least_watch_witness :
    statusLe Status.watch
      (classifyRaw [] { composite := 20, tally := activeTally } (some 80)) :=
  C4_sudden_drop_at_least_watch.1 80 []
    { composite := 20, tally := activeTally } drop_example_lt

/-! ## C7 — insufficient history is explicit and non-error -/

/-- C7: with fewer than `MIN_BASELINE_WEEKS` eligible prior weeks the
baseline is unavailable (`none`, in particular never a numeric zero), the
classifier gives such a user `healthy` without firing any rule, and the
persisted record surfaces the insufficient-history state as an absent
baseline together with raw status `healthy`. -/
theorem C7_insufficient_history_explicit :
    ∀ (prior : List WeeklyScore),
      (eligibleScores prior).length < MIN_BASELINE_WEEKS →
      baselineScore prior = none ∧
      baselineScore prior ≠ some 0 ∧
      (∀ (hist : List WeekData) (cur : WeekData),
         classifyRaw hist cur (baselineScore prior) = Status.healthy) ∧
      ∀ (cfg : Config) (input : WeekInput),
        (scoreWeek cfg prior input).baseline_score = none ∧
        (scoreWeek cfg prior input).raw_status = Status.healthy := by
  intro prior h
  have hb : baselineScore prior = none := by
    simp only [baselineScore]
    rw [if_pos h]
  refine ⟨hb, by simp [hb], fun hist cur => by rw [hb]; rfl, fun cfg input => ?_⟩
  constructor
  · simp only [scoreWeek, hb]
  · simp only [scoreWeek, hb]
    rfl

/-- C7 witness: a brand-new user (no prior weeks) has an unavailable
baseline, is classified `healthy`, and the record shows both. -/
theorem C7_insufficient_history_explicit_witness :
    baselineScore [] = none ∧
    baselineScore [] ≠ some 0 ∧
    classifyRaw [] exAt (baselineScore []) = Status.healthy ∧
    (scoreWeek {} [] { events := [], flags := {} }).baseline_score = none ∧
    (scoreWeek {} [] { events := [], flags := {} }).raw_status = Status.healthy :=
  have h := C7_insufficient_history_explicit [] (by decide)
  ⟨h.1, h.2.1, h.2.2.1 [] exAt,
   (h.2.2.2 {} { events := [], flags := {} }).1,
   (h.2.2.2 {} { events := [], flags := {} }).2⟩

/-! ## C8 — closed neutral label set -/

/-- C8: the engine emits exactly the strings healthy/watch/needs_review,
and `StatusBadge.getStatusInfo` maps exactly those (case-insensitively) to
the labels Healthy/Watch/Needs Review, with every other input — including a
null/undefined status — mapped to Unknown. -/
theorem C8_status_labels_closed_neutral_set :
    (∀ st : Status,
       statusToString st = "healthy" ∨ statusToString st = "watch" ∨
       statusToString st = "needs_review") ∧
    (getStatusInfo none).label = "Unknown" ∧
    ∀ s : String,
      (getStatusInfo (some s)).label =
        if s.toLower = "healthy" then "Healthy"
        else if s.toLower = "watch" then "Watch"
        else if s.toLower = "needs_review" then "Needs Review"
        else "Unknown" := by
  refine ⟨?_, rfl, ?_⟩
  · intro st
    cases st
    · exact Or.inl rfl
    · exact Or.inr (Or.inl rfl)
    · exact Or.inr (Or.inr rfl)
  · intro s
    simp only [getStatusInfo, Option.map]
    split <;> simp_all

/-! ## C9 — TrendChart chart data -/

/-- C9: `TrendChart` builds no chart data for a null or empty data array;
otherwise it builds exactly one datum per input item, in order, carrying
the item's `week_start`, and every requested metric key is defined on every
datum with value 0 substituted for a missing or falsy item value. -/
theorem C9_trend_chart_one_datum_per_item :
    (∀ metrics, trendChartData none metrics = none) ∧
    (∀ metrics, trendChartData (some []) metrics = none) ∧
    (∀ (l : List TrendItem) (metrics : List String), l ≠ [] →
       (trendChartData (some l) metrics).map List.length = some l.length) ∧
    (∀ (l : List TrendItem) (metrics : List String) (i : Nat) (it : TrendItem),
       l.get? i = some it →
       (trendChartData (some l) metrics).bind (fun cd => cd.get? i) =
         some (chartDatum metrics it)) ∧
    (∀ (it : TrendItem) (metrics : List String) (m : String), m ∈ metrics →
       datumGet (chartDatum metrics it) m = some (jsOrZero (itemGet it m))) ∧
    ∀ (it : TrendItem) (metrics : List String),
      (chartDatum metrics it).week_start = it.week_start := by
  refine ⟨fun _ => rfl, fun _ => rfl, ?_, ?_, ?_, fun _ _ => rfl⟩
  · intro l metrics hl
    have he : l.isEmpty = false := by
      cases l with
      | nil => exact absurd rfl hl
      | cons x xs => rfl
    simp [trendChartData, he]
  · intro l metrics i it h
    have hl : l.isEmpty = false := by
      cases l with
      | nil => simp at h
      | cons x xs => rfl
    simp only [trendChartData, hl, Bool.false_eq_true, if_false, Option.some_bind]
    rw [List.get?_map, h]
    rfl
  · intro it metrics
    induction metrics with
    | nil => intro m hm; cases hm
    | cons x xs ih =>
      intro m hm
      by_cases hxm : x = m
      · subst hxm
        simp only [chartDatum, datumGet, List.map_cons]
        rw [List.find?_cons_of_pos _ (by simp)]
        rfl
      · have hm2 : m ∈ xs := by
          cases hm with
          | head => exact absurd rfl hxm
          | tail _ h2 => exact h2
        have := ih m hm2
        simp only [chartDatum, datumGet, List.map_cons] at this ⊢
        rw [List.find?_cons_of_neg _ (by simp [hxm])]
        exact this

/-- The concrete chart item used by the C9 witness. -/
def witnessItem : TrendItem :=
  { week_start := "2024-01-01", fields := [(("composite_score"), (5:ℚ))] }

/-- The concrete metric list used by the C9 witness. -/
def witnessMetrics : List String := [("composite_score"), ("baseline_score")]

/-- C9 witness: a one-item data array with one present and one missing
metric. -/
theorem C9_trend_chart_one_datum_per_item_witness :
    (trendChartData (some [witnessItem]) witnessMetrics).map List.length = some 1 ∧
    (trendChartData (some [witnessItem]) witnessMetrics).bind (fun cd => cd.get? 0) =
      some (chartDatum witnessMetrics witnessItem) ∧
    datumGet (chartDatum witnessMetrics witnessItem) ("composite_score") =
      some (jsOrZero (itemGet witnessItem ("composite_score"))) ∧
    datumGet (chartDatum witnessMetrics witnessItem) ("baseline_score") =
      some (jsOrZero (itemGet witnessItem ("baseline_score"))) :=
  ⟨C9_trend_chart_one_datum_per_item.2.2.1 [witnessItem] witnessMetrics
     (List.cons_ne_nil _ _),
   C9_trend_chart_one_datum_per_item.2.2.2.1 [witnessItem] witnessMetrics 0
     witnessItem rfl,
   C9_trend_chart_one_datum_per_item.2.2.2.2.1 witnessItem witnessMetrics
     ("composite_score") (by simp [witnessMetrics]),
   C9_trend_chart_one_datum_per_item.2.2.2.2.1 witnessItem witnessMetrics
     ("baseline_score") (by simp [witnessMetrics])⟩

/-! ## C10 — Dashboard CSV export -/

/-- Indexing into a concatenation of blocks: the element `mi` of block `ti`
sits at the offset given by the summed lengths of the earlier blocks. -/
lemma get?_flatMap_block {α β : Type _} (f : α → List β) :
    ∀ (ts : List α) (ti : Nat) (t : α), ts.get? ti = some t →
      ∀ mi, mi < (f t).length →
        (ts.flatMap f).get? (((ts.take ti).map (fun x => (f x).length)).sum + mi) =
          (f t).get? mi := by
  intro ts
  induction ts with
  | nil => intro ti t h; simp at h
  | cons x rest ih =>
    intro ti t h mi hmi
    cases ti with
    | zero =>
      simp only [List.get?] at h
      injection h with h
      subst h
      simp only [List.take_zero, List.map_nil, List.sum_nil, Nat.zero_add,
        List.flatMap_cons]
      exact List.get?_append hmi
    | succ n =>
      simp only [List.get?] at h
      rw [List.flatMap_cons, List.take_succ_cons, List.map_cons, List.sum_cons]
      rw [Nat.add_assoc, List.get?_append_right (by omega)]
      have hi : (f x).length + (((rest.take n).map (fun x => (f x).length)).sum + mi)
          - (f x).length = ((rest.take n).map (fun x => (f x).length)).sum + mi := by
        omega
      rw [hi]
      exact ih n t h mi hmi

/-- C10: `exportToCSV` produces nothing when no report is loaded; for a
loaded report it produces the fixed header row followed by exactly one row
per member of each team, in team order then member order, with a null
composite score exported as 0 and all other tally fields copied through
unchanged. -/
theorem C10_export_csv_shape :
    exportToCSV none = none ∧
    (∀ r : Report, exportToCSV (some r) = some (exportRows r)) ∧
    (∀ r : Report, (exportRows r).head? = some csvHeader) ∧
    (∀ r : Report, (exportRows r).length =
       1 + (r.teams.map (fun t => t.members.length)).sum) ∧
    (∀ (r : Report) (ti : Nat) (t : Team) (mi : Nat) (m : Member),
       r.teams.get? ti = some t → t.members.get? mi = some m →
       (exportRows r).get?
         (1 + ((r.teams.take ti).map (fun t2 => t2.members.length)).sum + mi) =
         some (memberRow r t m)) ∧
    (∀ (r : Report) (t : Team) (m : Member),
       m.current_week.composite_score = none →
       (memberRow r t m).get? 4 = some (Field.num 0)) ∧
    (∀ (r : Report) (t : Team) (m : Member) (q : ℚ),
       m.current_week.composite_score = some q →
       (memberRow r t m).get? 4 = some (Field.num q)) ∧
    ∀ (r : Report) (t : Team) (m : Member),
      (memberRow r t m).get? 5 = some (Field.num m.current_week.tickets_completed) ∧
      (memberRow r t m).get? 6 = some (Field.num m.current_week.prs_authored) ∧
      (memberRow r t m).get? 7 = some (Field.num m.current_week.prs_reviewed) := by
  refine ⟨rfl, fun r => rfl, fun r => rfl, ?_, ?_, ?_, ?_, fun r t m => ⟨rfl, rfl, rfl⟩⟩
  · intro r
    simp only [exportRows, List.length_cons, List.length_flatMap, Function.comp_def,
      List.length_map]
    omega
  · intro r ti t mi m ht hm
    have hmi : mi < (t.members.map (memberRow r t)).length := by
      simp only [List.length_map]
      exact (List.get?_eq_some.mp hm).1
    have hblock := get?_flatMap_block
      (fun tm : Team => tm.members.map (memberRow r tm)) r.teams ti t ht mi hmi
    simp only [List.length_map] at hblock
    rw [List.get?_map, hm] at hblock
    rw [exportRows]
    have hidx : 1 + ((r.teams.take ti).map (fun t2 => t2.members.length)).sum + mi =
        (((r.teams.take ti).map (fun t2 => t2.members.length)).sum + mi) + 1 := by
      omega
    rw [hidx, List.get?_cons_succ]
    exact hblock
  · intro r t m h
    simp [memberRow, jsOrZero, h]
  · intro r t m q h
    simp only [memberRow, jsOrZero, h]
    by_cases hq : q = 0
    · subst hq
      rfl
    · simp only [if_neg hq]
      rfl

/-- The concrete weekly report used by the C10 witness: one team with a
member whose composite score is null and a member with composite 5. -/
def witnessReport : Report :=
  { week_start := "2024-01-01"
    teams :=
      [{ team_name := "Alpha"
         members :=
           [{ user_name := "Ann", engagement_status := "healthy",
              current_week :=
                { composite_score := none, tickets_completed := 1,
                  prs_authored := 2, prs_reviewed := 3 } },
            { user_name := "Bob", engagement_status := "watch",
              current_week :=
                { composite_score := some 5, tickets_completed := 4,
                  prs_authored := 5, prs_reviewed := 6 } }] }] }

/-- C10 witness: both members of the witness report end up at the expected
row positions, the null composite exports as 0 and the present one
unchanged. -/
theorem C10_export_csv_shape_witness :
    ((exportRows witnessReport).get? 1 =
       some (memberRow witnessReport (witnessReport.teams.get ⟨0, by decide⟩)
         ((witnessReport.teams.get ⟨0, by decide⟩).members.get ⟨0, by decide⟩))) ∧
    ((memberRow witnessReport (witnessReport.teams.get ⟨0, by decide⟩)
       ((witnessReport.teams.get ⟨0, by decide⟩).members.get ⟨0, by decide⟩)).get? 4 =
       some (Field.num 0)) ∧
    ((memberRow witnessReport (witnessReport.teams.get ⟨0, by decide⟩)
       ((witnessReport.teams.get ⟨0, by decide⟩).members.get ⟨1, by decide⟩)).get? 4 =
       some (Field.num 5)) :=
  ⟨C10_export_csv_shape.2.2.2.2.1 witnessReport 0 _ 0 _ rfl rfl,
   C10_export_csv_shape.2.2.2.2.2.1 witnessReport _ _ rfl,
   C10_export_csv_shape.2.2.2.2.2.2.1 witnessReport _ _ 5 rfl⟩

/-! ## C5 — no look-ahead in the baseline; C6 — idempotent aggregation -/

/-- The already-produced records are a stable prefix of the timeline fold. -/
lemma processGo_take (cfg : Config) :
    ∀ (l : List WeekInput) (acc : List WeeklyScore),
      (l.foldl (fun a i => a ++ [scoreWeek cfg a i]) acc).take acc.length = acc := by
  intro l
  induction l with
  | nil => intro acc; simp
  | cons x xs ih =>
    intro acc
    rw [List.foldl_cons]
    have h1 := ih (acc ++ [scoreWeek cfg acc x])
    rw [show (acc ++ [scoreWeek cfg acc x]).length = acc.length + 1 from by simp] at h1
    calc (xs.foldl (fun a i => a ++ [scoreWeek cfg a i])
            (acc ++ [scoreWeek cfg acc x])).take acc.length
        = ((xs.foldl (fun a i => a ++ [scoreWeek cfg a i])
            (acc ++ [scoreWeek cfg acc x])).take (acc.length + 1)).take acc.length := by
          rw [List.take_take, Nat.min_eq_left (by omega)]
      _ = (acc ++ [scoreWeek cfg acc x]).take acc.length := by rw [h1]
      _ = acc := List.take_left acc _

/-- The timeline fold adds one record per input week. -/
lemma processGo_length (cfg : Config) :
    ∀ (l : List WeekInput) (acc : List WeeklyScore),
      (l.foldl (fun a i => a ++ [scoreWeek cfg a i]) acc).length =
        acc.length + l.length := by
  intro l
  induction l with
  | nil => intro acc; simp
  | cons x xs ih =>
    intro acc
    rw [List.foldl_cons, ih]
    simp only [List.length_append, List.length_cons, List.length_nil]
    omega

/-- The record produced for week `i` of the timeline fold is the score of
that week's input against exactly the records of the weeks before it. -/
lemma processGo_get (cfg : Config) :
    ∀ (l : List WeekInput) (acc : List WeeklyScore) (i : Nat) (inp : WeekInput),
      l.get? i = some inp →
      (l.foldl (fun a j => a ++ [scoreWeek cfg a j]) acc).get? (acc.length + i) =
        some (scoreWeek cfg
          ((l.take i).foldl (fun a j => a ++ [scoreWeek cfg a j]) acc) inp) := by
  intro l
  induction l with
  | nil => intro acc i inp h; simp at h
  | cons x xs ih =>
    intro acc i inp h
    cases i with
    | zero =>
      simp only [List.get?] at h
      injection h with h
      subst h
      rw [List.foldl_cons]
      simp only [List.take_zero, List.foldl_nil, Nat.add_zero]
      have h1 := processGo_take cfg xs (acc ++ [scoreWeek cfg acc x])
      rw [show (acc ++ [scoreWeek cfg acc x]).length = acc.length + 1 from by simp] at h1
      rw [← List.get?_take (by omega : acc.length < acc.length + 1), h1,
        List.get?_concat_length]
    | succ n =>
      simp only [List.get?] at h
      rw [List.foldl_cons, List.take_succ_cons, List.foldl_cons]
      have h2 := ih (acc ++ [scoreWeek cfg acc x]) n inp h
      rw [show (acc ++ [scoreWeek cfg acc x]).length = acc.length + 1 from by simp] at h2
      rw [show acc.length + (n + 1) = acc.length + 1 + n from by omega]
      exact h2

/-- C5: processing a user's timeline never looks ahead — appending later
weeks leaves every already-produced record unchanged (a closed week's
record, its baseline included, is never retroactively changed), and the
baseline recorded for week `i` is computed from exactly the records of the
weeks strictly before `i`. -/
theorem C5_baseline_no_lookahead :
    (∀ (cfg : Config) (xs ys : List WeekInput),
       (processTimeline cfg (xs ++ ys)).take xs.length = processTimeline cfg xs) ∧
    ∀ (cfg : Config) (xs : List WeekInput) (i : Nat) (r : WeeklyScore),
      (processTimeline cfg xs).get? i = some r →
      r.baseline_score = baselineScore ((processTimeline cfg xs).take i) := by
  have hpart1 : ∀ (cfg : Config) (xs ys : List WeekInput),
      (processTimeline cfg (xs ++ ys)).take xs.length = processTimeline cfg xs := by
    intro cfg xs ys
    rw [processTimeline, List.foldl_append]
    have h1 := processGo_take cfg ys (xs.foldl (fun a i => a ++ [scoreWeek cfg a i]) [])
    rw [show (xs.foldl (fun a i => a ++ [scoreWeek cfg a i]) []).length = xs.length
      from by simpa using processGo_length cfg xs []] at h1
    exact h1
  refine ⟨hpart1, ?_⟩
  intro cfg xs i r h
  have hlen : (processTimeline cfg xs).length = xs.length := by
    simpa using processGo_length cfg xs []
  have hi : i < xs.length := by
    by_contra hge
    rw [List.get?_eq_none.mpr (by rw [hlen]; omega)] at h
    simp at h
  have hinp : xs.get? i = some (xs.get ⟨i, hi⟩) := List.get?_eq_get hi
  have hg := processGo_get cfg xs [] i (xs.get ⟨i, hi⟩) hinp
  simp only [List.length_nil, Nat.zero_add] at hg
  simp only [processTimeline] at h
  rw [hg] at h
  injection h with h
  have hsplit : (processTimeline cfg xs).take i = processTimeline cfg (xs.take i) := by
    have h2 := hpart1 cfg (xs.take i) (xs.drop i)
    rw [List.take_append_drop] at h2
    rw [show (xs.take i).length = i from by
      rw [List.length_take]; omega] at h2
    exact h2
  rw [← h, hsplit]
  rfl

/-- The week input used by the concrete witnesses of C5 and C6. -/
def emptyWeekInput : WeekInput := { events := [], flags := {} }

/-- C5 witness: in a two-week timeline the second week's recorded baseline
is exactly the baseline computed from the records before it. -/
theorem C5_baseline_no_lookahead_witness :
    (scoreWeek {} [] emptyWeekInput).baseline_score =
      baselineScore ((processTimeline {} [emptyWeekInput]).take 0) :=
  C5_baseline_no_lookahead.2 {} [emptyWeekInput] 0 (scoreWeek {} [] emptyWeekInput) rfl

/-- Setting an index leaves the strictly earlier prefix unchanged. -/
lemma take_set_self : ∀ (l : List α) (n : Nat) (a : α), (l.set n a).take n = l.take n := by
  intro l
  induction l with
  | nil => intro n a; simp
  | cons x xs ih =>
    intro n a
    cases n with
    | zero => simp
    | succ m =>
      show (x :: xs.set m a).take (m + 1) = (x :: xs).take (m + 1)
      rw [List.take_succ_cons, List.take_succ_cons, ih]

/-- Overwriting the appended last element replaces it. -/
lemma concat_set_last : ∀ (l : List α) (a b : α), (l ++ [a]).set l.length b = l ++ [b] := by
  intro l
  induction l with
  | nil => intro a b; rfl
  | cons x xs ih =>
    intro a b
    show x :: (xs ++ [a]).set xs.length b = x :: (xs ++ [b])
    rw [ih]

/-- C6: the aggregation job is idempotent — re-running the aggregation of
an already-closed week over the unchanged input produces a store of weekly
records identical to the one produced by the first run (the recomputation
reads only the strictly earlier records, which the write at the week's own
index does not touch). -/
theorem C6_aggregation_idempotent :
    ∀ (cfg : Config) (store : List WeeklyScore) (w : Nat) (input : WeekInput),
      w ≤ store.length →
      runWeek cfg (runWeek cfg store w input) w input = runWeek cfg store w input := by
  intro cfg store w input hw
  rcases Nat.lt_or_ge w store.length with hlt | hge
  · have h1 : runWeek cfg store w input =
        store.set w (scoreWeek cfg (store.take w) input) := by
      simp only [runWeek, if_pos hlt]
    rw [h1]
    simp only [runWeek]
    rw [take_set_self]
    rw [if_pos (show w < (store.set w (scoreWeek cfg (store.take w) input)).length
      from by simpa using hlt)]
    rw [List.set_set]
  · have heq : w = store.length := le_antisymm hw hge
    subst heq
    have h1 : runWeek cfg store store.length input =
        store ++ [scoreWeek cfg store input] := by
      simp only [runWeek, lt_irrefl, if_false, List.take_length]
    rw [h1]
    simp only [runWeek]
    rw [List.take_left]
    rw [if_pos (by simp)]
    rw [concat_set_last]

/-- C6 witness: re-running the first week of an empty store. -/
theorem C6_aggregation_idempotent_witness :
    runWeek {} (runWeek {} [] 0 emptyWeekInput) 0 emptyWeekInput =
      runWeek {} [] 0 emptyWeekInput :=
  C6_aggregation_idempotent {} [] 0 emptyWeekInput (Nat.zero_le _)

end SlackKiller
